import Mathlib

/-!
Verification of the Electrochemical Potential Converter (src/app.py).

The core of the application is a static table of reference-electrode
offsets versus the Standard Hydrogen Electrode (SHE) and a pure function
`convert_potential` that shifts a measured potential between two electrode
scales through the common SHE pivot.  The surrounding Streamlit handlers
(Convert, Clear History, Swap References) mutate a per-session history
list and a pair of electrode selections; they are modelled here as pure
state transitions.  Potentials are modelled as exact rationals; the table
offsets are exact three-decimal values.
-/

namespace PotentialConverter

/-- The table REFERENCE_POTENTIALS from src/app.py lines 12-29, as an
association list in source order.  Each entry pairs the electrode display
name with its offset in volts versus SHE at 25 degrees Celsius. -/
def REFERENCE_POTENTIALS : List (String × ℚ) :=
  [ ("NHE (Normal Hydrogen)", 0),
    ("SHE (Standard Hydrogen)", 0),
    ("Calomel (Sat\x27d KCl)", 241/1000),
    ("Calomel (3.5M KCl)", 250/1000),
    ("Calomel (1M KCl)", 280/1000),
    ("Calomel (0.1M KCl)", 334/1000),
    ("Ag/AgCl (Sat\x27d KCl)", 197/1000),
    ("Ag/AgCl (3.5M KCl)", 205/1000),
    ("Ag/AgCl (3M KCl)", 210/1000),
    ("Ag/AgCl (0.1M KCl)", 288/1000),
    ("Mercury/Mercurous Sulfate (0.5M H₂SO₄)", 682/1000),
    ("Mercury/Mercurous Sulfate (1M H₂SO₄)", 674/1000),
    ("Mercury/Mercurous Sulfate (Sat\x27d K₂SO₄)", 640/1000),
    ("Hg/HgO (1M NaOH)", 98/1000),
    ("Hg/HgO (20% KOH)", 95/1000),
    ("Silver/Silver Sulfate (Sat\x27d K₂SO₄)", 654/1000) ]

/-- The key set of the reference table: the electrode display names. -/
def electrodeNames : List String :=
  REFERENCE_POTENTIALS.map Prod.fst

/-- The single error kind of the core: a supplied electrode name is not a
key of the reference table (a KeyError on the Python dictionary). -/
inductive ConvError where
  | UnknownElectrode
deriving DecidableEq

deriving instance DecidableEq for Except

/-- The function convert_potential from src/app.py lines 32-54, in exact
(rational) arithmetic.  The Python body evaluates
REFERENCE_POTENTIALS[from_ref] first (line 51) and
REFERENCE_POTENTIALS[to_ref] second (line 52); either missing key raises,
which is modelled by the error branch.  On success it returns
(potential + offset(from_ref)) - offset(to_ref).  This is the idealized
semantics of the program's arithmetic; convert_potential_fp below is the
same function over the program's actual binary64 numbers, whose two
operations each round. -/
def convert_potential (potential : ℚ) (from_ref to_ref : String) :
    Except ConvError ℚ :=
  match REFERENCE_POTENTIALS.lookup from_ref with
  | none => .error .UnknownElectrode
  | some o₁ =>
    match REFERENCE_POTENTIALS.lookup to_ref with
    | none => .error .UnknownElectrode
    | some o₂ => .ok (potential + o₁ - o₂)

/-- A history entry, as appended by the Convert button handler
(src/app.py lines 123-129): input potential, the two electrode names, the
converted result, and the timestamp string supplied by the environment. -/
structure ConversionRecord where
  inputPotential : ℚ
  fromReference : String
  toReference : String
  result : ℚ
  timestamp : String
deriving DecidableEq

/-- The Convert button handler (src/app.py lines 109-129) acting on the
session history: it calls convert_potential, and only when that call
returns normally does it append one record at the end of the history.
The timestamp is an input from the environment (pd.Timestamp.now). -/
def handleConvert (history : List ConversionRecord) (potential : ℚ)
    (from_ref to_ref : String) (timestamp : String) :
    List ConversionRecord × Except ConvError ℚ :=
  match convert_potential potential from_ref to_ref with
  | .error e => (history, .error e)
  | .ok v =>
      (history ++ [⟨potential, from_ref, to_ref, v, timestamp⟩], .ok v)

/-- The Clear History button handler (src/app.py lines 165-167): it
replaces the session history with the empty list. -/
def handleClearHistory (_history : List ConversionRecord) :
    List ConversionRecord :=
  []

/-- The transient swap request stored in Streamlit session state by the
Swap References handler (src/app.py lines 95-96): optional overrides for
the two selections, absent when no swap is pending. -/
structure SwapRequest where
  from_override : Option String
  to_override : Option String
deriving DecidableEq

/-- The Swap References button handler (src/app.py lines 92-97): it
records the current target name as the pending source override and the
current source name as the pending target override, then triggers a
rerun. -/
def handleSwap (from_ref to_ref : String) (_s : SwapRequest) : SwapRequest :=
  ⟨some to_ref, some from_ref⟩

/-- Application of pending session-state overrides on the next run
(src/app.py lines 100-106): each selection is replaced by its stored
override when one is present, and the consumed override is deleted. -/
def applySwapRequest (from_ref to_ref : String) (s : SwapRequest) :
    (String × String) × SwapRequest :=
  let f := match s.from_override with
    | some v => v
    | none => from_ref
  let t := match s.to_override with
    | some v => v
    | none => to_ref
  ((f, t), ⟨none, none⟩)

/-- Fuel-driven binary length: bitsFuel f n is the number of binary
digits of n whenever n < 2 ^ f; structural recursion on the fuel keeps it
kernel-reducible. -/
def bitsFuel : ℕ → ℕ → ℕ
  | 0, _ => 0
  | f + 1, n => if n = 0 then 0 else bitsFuel f (n / 2) + 1

/-- Number of binary digits of a natural number (adequate fuel for every
quantity arising from binary64 arithmetic, whose magnitudes stay far
below 2 ^ 4400). -/
def bits (n : ℕ) : ℕ := bitsFuel 4400 n

/-- An IEEE-754 binary64 value, the number format of the Python floats in
src/app.py: a finite value is an exact dyadic rational m * 2 ^ e, plus
the two infinities and NaN.  Zero is represented as finite 0 0 (the sign
of zero is invisible to the equality semantics modelled here). -/
inductive Float64 where
  | finite (m : ℤ) (e : ℤ)
  | inf (negative : Bool)
  | nan
deriving DecidableEq

/-- Overflow test for binary64: decides a * 2 ^ q ≥ 2 ^ 1024 using binary
lengths (for a ≥ 1 and k ≥ 0, a ≥ 2 ^ k holds exactly when
bits a ≥ k + 1), which avoids materialising huge powers of two. -/
def overflows (a : ℕ) (q : ℤ) : Bool :=
  if a = 0 then false
  else if 1024 < q then true
  else (1024 - q).toNat + 1 ≤ bits a

/-- Round the exact dyadic value M * 2 ^ E to the nearest binary64 value,
ties to even: the rounding quantum is 2 ^ q with q = bits(M) + E - 53,
floored at 2 ^ (-1074) for gradual underflow, and a rounded magnitude
reaching 2 ^ 1024 overflows to infinity. -/
def roundDyadic (M : ℤ) (E : ℤ) : Float64 :=
  if M = 0 then .finite 0 0
  else
    let a := M.natAbs
    let q : ℤ := max ((bits a : ℤ) + E - 53) (-1074)
    if q ≤ E then
      let n := a * 2 ^ (E - q).toNat
      if overflows n q then .inf (M < 0)
      else .finite (if M < 0 then -(n : ℤ) else (n : ℤ)) q
    else
      let s := (q - E).toNat
      let quo := a / 2 ^ s
      let rem := a % 2 ^ s
      let half := 2 ^ (s - 1)
      let nAbs := if half < rem then quo + 1
        else if rem < half then quo
        else quo + quo % 2
      if overflows nAbs q then .inf (M < 0)
      else .finite (if M < 0 then -(nAbs : ℤ) else (nAbs : ℤ)) q

/-- The binary64 value denoted by the decimal literal n / 10 ^ d, rounded
to nearest, ties to even — how Python reads the float literals of
src/app.py (all of which lie well inside the normal range, so no
underflow or overflow handling is needed here).  The scaled quotient
carries at least 54 binary digits, and the division remainder supplies
the sticky information for a correct tie decision. -/
def floatOfDecimal (n : ℤ) (d : ℕ) : Float64 :=
  if n = 0 then .finite 0 0
  else
    let den := 10 ^ d
    let t := 54 + bits den
    let a := n.natAbs * 2 ^ t
    let quo := a / den
    let rem := a % den
    let s := bits quo - 53
    let lo := quo % 2 ^ s
    let hi := quo / 2 ^ s
    let half := 2 ^ (s - 1)
    let nAbs := if half < lo then hi + 1
      else if lo < half then hi
      else if rem = 0 then hi + hi % 2 else hi + 1
    .finite (if n < 0 then -(nAbs : ℤ) else (nAbs : ℤ)) ((s : ℤ) - t)

/-- IEEE-754 binary64 addition: NaN propagates, infinities of equal sign
absorb and of opposite sign give NaN, and finite operands are added
exactly as dyadics and then rounded to nearest, ties to even. -/
def fadd : Float64 → Float64 → Float64
  | .nan, _ => .nan
  | _, .nan => .nan
  | .inf s₁, .inf s₂ => if s₁ = s₂ then .inf s₁ else .nan
  | .inf s, .finite _ _ => .inf s
  | .finite _ _, .inf s => .inf s
  | .finite m₁ e₁, .finite m₂ e₂ =>
      let e := min e₁ e₂
      roundDyadic (m₁ * 2 ^ (e₁ - e).toNat + m₂ * 2 ^ (e₂ - e).toNat) e

/-- Negation of a binary64 value (exact). -/
def fneg : Float64 → Float64
  | .finite m e => .finite (-m) e
  | .inf s => .inf (!s)
  | .nan => .nan

/-- IEEE-754 binary64 subtraction, which coincides with addition of the
negated second operand. -/
def fsub (x y : Float64) : Float64 := fadd x (fneg y)

/-- Python float equality: NaN compares unequal to everything, infinities
compare by sign, and finite values compare as exact dyadic rationals
(cross-multiplied by the exponent difference, so non-canonical
representations of the same value compare equal). -/
def pyEq : Float64 → Float64 → Bool
  | .nan, _ => false
  | _, .nan => false
  | .inf s₁, .inf s₂ => s₁ == s₂
  | .inf _, .finite _ _ => false
  | .finite _ _, .inf _ => false
  | .finite m₁ e₁, .finite m₂ e₂ =>
      if e₁ ≤ e₂ then m₁ == m₂ * 2 ^ (e₂ - e₁).toNat
      else m₂ == m₁ * 2 ^ (e₁ - e₂).toNat

/-- The table REFERENCE_POTENTIALS of src/app.py lines 12-29 once more,
now with each offset literal read as the binary64 value Python gives it
(same 16 names, same source order). -/
def REFERENCE_POTENTIALS_fp : List (String × Float64) :=
  [ ("NHE (Normal Hydrogen)", floatOfDecimal 0 3),
    ("SHE (Standard Hydrogen)", floatOfDecimal 0 3),
    ("Calomel (Sat\x27d KCl)", floatOfDecimal 241 3),
    ("Calomel (3.5M KCl)", floatOfDecimal 250 3),
    ("Calomel (1M KCl)", floatOfDecimal 280 3),
    ("Calomel (0.1M KCl)", floatOfDecimal 334 3),
    ("Ag/AgCl (Sat\x27d KCl)", floatOfDecimal 197 3),
    ("Ag/AgCl (3.5M KCl)", floatOfDecimal 205 3),
    ("Ag/AgCl (3M KCl)", floatOfDecimal 210 3),
    ("Ag/AgCl (0.1M KCl)", floatOfDecimal 288 3),
    ("Mercury/Mercurous Sulfate (0.5M H₂SO₄)", floatOfDecimal 682 3),
    ("Mercury/Mercurous Sulfate (1M H₂SO₄)", floatOfDecimal 674 3),
    ("Mercury/Mercurous Sulfate (Sat\x27d K₂SO₄)", floatOfDecimal 640 3),
    ("Hg/HgO (1M NaOH)", floatOfDecimal 98 3),
    ("Hg/HgO (20% KOH)", floatOfDecimal 95 3),
    ("Silver/Silver Sulfate (Sat\x27d K₂SO₄)", floatOfDecimal 654 3) ]

/-- The function convert_potential of src/app.py lines 32-54 in the
program's own number format: the same two lookups in the same order, with
the addition of line 51 and the subtraction of line 52 performed as
rounding binary64 operations. -/
def convert_potential_fp (potential : Float64) (from_ref to_ref : String) :
    Except ConvError Float64 :=
  match REFERENCE_POTENTIALS_fp.lookup from_ref with
  | none => .error .UnknownElectrode
  | some o₁ =>
    match REFERENCE_POTENTIALS_fp.lookup to_ref with
    | none => .error .UnknownElectrode
    | some o₂ => .ok (fsub (fadd potential o₁) o₂)

/-- Helper: a name that occurs among the keys of an association list has a
successful lookup. -/
theorem lookup_of_mem_keys {β : Type} {l : List (String × β)} {a : String}
    (h : a ∈ l.map Prod.fst) : ∃ b, l.lookup a = some b := by
  induction l with
  | nil => simp at h
  | cons hd tl ih =>
    by_cases hhd : a = hd.1
    · exact ⟨hd.2, by simp [List.lookup, hhd]⟩
    · have : a ∈ tl.map Prod.fst := by
        simp only [List.map_cons, List.mem_cons] at h
        exact h.resolve_left hhd
      obtain ⟨b, hb⟩ := ih this
      have hne : (a == hd.1) = false := beq_eq_false_iff_ne.mpr hhd
      exact ⟨b, by simp [List.lookup, hne, hb]⟩

/-- Helper: a successful lookup means the name occurs among the keys. -/
theorem mem_keys_of_lookup {β : Type} {l : List (String × β)} {a : String}
    {b : β} (h : l.lookup a = some b) : a ∈ l.map Prod.fst := by
  induction l with
  | nil => simp [List.lookup] at h
  | cons hd tl ih =>
    by_cases hhd : a = hd.1
    · simp [hhd]
    · simp only [List.lookup, beq_iff_eq, if_neg hhd] at h
      have hne : (a == hd.1) = false := beq_eq_false_iff_ne.mpr hhd
      rw [hne] at h
      simp only [List.map_cons, List.mem_cons]
      exact Or.inr (ih h)

/-- Helper: lookup fails exactly on names outside the key set. -/
theorem lookup_eq_none_iff {β : Type} (l : List (String × β)) (a : String) :
    l.lookup a = none ↔ a ∉ l.map Prod.fst := by
  constructor
  · intro h hmem
    obtain ⟨b, hb⟩ := lookup_of_mem_keys hmem
    rw [h] at hb
    exact Option.noConfusion hb
  · intro h
    cases hl : l.lookup a with
    | none => rfl
    | some b => exact absurd (mem_keys_of_lookup hl) h

/-- C1: for every potential p and every pair of electrode names whose
table offsets are o₁ and o₂, convert_potential returns
(p + o₁) - o₂: it first adds the source offset versus SHE, then
subtracts the target offset. -/
theorem convert_adds_source_offset_then_subtracts_target (p : ℚ)
    (from_ref to_ref : String) (o₁ o₂ : ℚ)
    (h₁ : REFERENCE_POTENTIALS.lookup from_ref = some o₁)
    (h₂ : REFERENCE_POTENTIALS.lookup to_ref = some o₂) :
    convert_potential p from_ref to_ref = .ok ((p + o₁) - o₂) := by
  simp [convert_potential, h₁, h₂]

/-- Witness for C1: the default example, source Ag/AgCl saturated KCl
(offset 0.197) and target SHE (offset 0). -/
theorem convert_adds_source_offset_then_subtracts_target_witness :
    REFERENCE_POTENTIALS.lookup "Ag/AgCl (Sat\x27d KCl)" = some (197/1000) ∧
    REFERENCE_POTENTIALS.lookup "SHE (Standard Hydrogen)" = some 0 ∧
    convert_potential (350/1000) "Ag/AgCl (Sat\x27d KCl)"
      "SHE (Standard Hydrogen)" = .ok ((350/1000 + 197/1000) - 0) :=
  ⟨rfl, rfl,
    convert_adds_source_offset_then_subtracts_target (350/1000)
      "Ag/AgCl (Sat\x27d KCl)" "SHE (Standard Hydrogen)" (197/1000) 0
      rfl rfl⟩

/-- C2: the reference table is a static map with exactly 16 entries, one
per electrode name (no duplicate keys), whose offsets in source order are
0.000, 0.000, 0.241, 0.250, 0.280, 0.334, 0.197, 0.205, 0.210, 0.288,
0.682, 0.674, 0.640, 0.098, 0.095, 0.654; in particular SHE is present
with offset 0.000. -/
theorem reference_table_is_the_specified_16_entry_map :
    REFERENCE_POTENTIALS.length = 16 ∧
    electrodeNames.Nodup ∧
    REFERENCE_POTENTIALS.map Prod.snd =
      [0, 0, 241/1000, 250/1000, 280/1000, 334/1000, 197/1000, 205/1000,
       210/1000, 288/1000, 682/1000, 674/1000, 640/1000, 98/1000, 95/1000,
       654/1000] ∧
    REFERENCE_POTENTIALS.lookup "SHE (Standard Hydrogen)" = some 0 := by
  refine ⟨rfl, by decide, rfl, rfl⟩

/-- C3 (amended): identity — for every electrode name R in the table and
every potential v, converting v from R to R returns v up to
floating-point rounding: exactly so in exact arithmetic, as stated here,
while the program's two rounding double operations can land one ulp away
(the exact-equality reading of the claim is refuted below at v = 0.1 with
R = Calomel saturated KCl). -/
theorem convert_identity (v : ℚ) (R : String)
    (hR : R ∈ electrodeNames) :
    convert_potential v R R = .ok v := by
  obtain ⟨o, ho⟩ := lookup_of_mem_keys hR
  simp [convert_potential, ho]

/-- Witness for C3: identity conversion on the SHE scale at 1 V. -/
theorem convert_identity_witness :
    ("SHE (Standard Hydrogen)" ∈ electrodeNames) ∧
    convert_potential 1 "SHE (Standard Hydrogen)"
      "SHE (Standard Hydrogen)" = .ok 1 :=
  ⟨by decide, convert_identity 1 "SHE (Standard Hydrogen)" (by decide)⟩

set_option maxRecDepth 100000 in
/-- Counterexample to C3 as stated: in the program's binary64 arithmetic
the identity is not exact — converting 0.1 from Calomel saturated KCl to
itself computes (0.1 + 0.241) - 0.241, which is 0.09999999999999998, a
value unequal (as a Python float comparison) to 0.1. -/
theorem convert_identity_float_counterexample :
    (convert_potential_fp (floatOfDecimal 100 3) "Calomel (Sat\x27d KCl)"
        "Calomel (Sat\x27d KCl)").map
      (fun w => pyEq w (floatOfDecimal 100 3)) = .ok false := by
  decide

/-- C4: round trip — for every pair of electrode names A, B in the table
and every potential v, converting v from A to B and the result back from
B to A returns v (exactly, in the rational model, hence within any
floating-point tolerance). -/
theorem convert_round_trip (v : ℚ) (A B : String)
    (hA : A ∈ electrodeNames) (hB : B ∈ electrodeNames) :
    ∃ w, convert_potential v A B = .ok w ∧
      convert_potential w B A = .ok v := by
  obtain ⟨a, ha⟩ := lookup_of_mem_keys hA
  obtain ⟨b, hb⟩ := lookup_of_mem_keys hB
  refine ⟨v + a - b, by simp [convert_potential, ha, hb], ?_⟩
  simp only [convert_potential, ha, hb]
  congr 1
  ring

/-- Witness for C4: round trip between Ag/AgCl saturated KCl and Calomel
saturated KCl at 0.5 V. -/
theorem convert_round_trip_witness :
    ("Ag/AgCl (Sat\x27d KCl)" ∈ electrodeNames) ∧
    ("Calomel (Sat\x27d KCl)" ∈ electrodeNames) ∧
    ∃ w, convert_potential (1/2) "Ag/AgCl (Sat\x27d KCl)"
        "Calomel (Sat\x27d KCl)" = .ok w ∧
      convert_potential w "Calomel (Sat\x27d KCl)"
        "Ag/AgCl (Sat\x27d KCl)" = .ok (1/2) :=
  ⟨by decide, by decide,
    convert_round_trip (1/2) "Ag/AgCl (Sat\x27d KCl)"
      "Calomel (Sat\x27d KCl)" (by decide) (by decide)⟩

/-- C5 (amended): worked example — in exact arithmetic, as stated here,
0.350 V versus Ag/AgCl saturated KCl is 0.547 V versus SHE and 0.547 V
versus SHE is 0.350 V versus Ag/AgCl saturated KCl; the program's double
arithmetic yields these values only within floating-point tolerance and
after the 3-decimal display rounding, its bit-level results being one ulp
off (refuted below as exact double equalities). -/
theorem worked_example_ag_agcl_she :
    convert_potential (350/1000) "Ag/AgCl (Sat\x27d KCl)"
      "SHE (Standard Hydrogen)" = .ok (547/1000) ∧
    convert_potential (547/1000) "SHE (Standard Hydrogen)"
      "Ag/AgCl (Sat\x27d KCl)" = .ok (350/1000) := by
  constructor
  · show Except.ok ((350 : ℚ)/1000 + 197/1000 - 0) = Except.ok (547/1000)
    norm_num
  · show Except.ok ((547 : ℚ)/1000 + 0 - 197/1000) = Except.ok (350/1000)
    norm_num

set_option maxRecDepth 100000 in
/-- Counterexample to C5 as stated: in the program's binary64 arithmetic
both claimed equalities fail — 0.350 + 0.197 - 0.000 computes to
0.5469999999999999, one ulp below the double 0.547, and
0.547 + 0.000 - 0.197 computes to 0.35000000000000003, one ulp above the
double 0.350, so neither Python float comparison holds. -/
theorem worked_example_float_counterexample :
    (convert_potential_fp (floatOfDecimal 350 3) "Ag/AgCl (Sat\x27d KCl)"
        "SHE (Standard Hydrogen)").map
      (fun w => pyEq w (floatOfDecimal 547 3)) = .ok false ∧
    (convert_potential_fp (floatOfDecimal 547 3) "SHE (Standard Hydrogen)"
        "Ag/AgCl (Sat\x27d KCl)").map
      (fun w => pyEq w (floatOfDecimal 350 3)) = .ok false := by
  constructor <;> decide

/-- C6: for every potential x, converting from NHE to SHE returns x,
since both electrodes have offset 0.000. -/
theorem nhe_to_she_is_identity (x : ℚ) :
    convert_potential x "NHE (Normal Hydrogen)"
      "SHE (Standard Hydrogen)" = .ok x := by
  show Except.ok (x + 0 - 0) = Except.ok x
  norm_num

/-- C7: convert_potential fails, with the single error kind
UnknownElectrode, exactly when the source or the target name is not a key
of the reference table; and when it fails, the Convert handler leaves the
history list unchanged. -/
theorem unknown_electrode_characterisation (p : ℚ)
    (from_ref to_ref : String) (history : List ConversionRecord)
    (ts : String) :
    (convert_potential p from_ref to_ref =
        .error ConvError.UnknownElectrode ↔
      from_ref ∉ electrodeNames ∨ to_ref ∉ electrodeNames) ∧
    (convert_potential p from_ref to_ref =
        .error ConvError.UnknownElectrode →
      (handleConvert history p from_ref to_ref ts).1 = history) := by
  constructor
  · constructor
    · intro h
      by_contra hcon
      push_neg at hcon
      obtain ⟨o₁, h₁⟩ := lookup_of_mem_keys hcon.1
      obtain ⟨o₂, h₂⟩ := lookup_of_mem_keys hcon.2
      simp [convert_potential, h₁, h₂] at h
    · intro h
      rcases h with h | h
      · have hnone := (lookup_eq_none_iff REFERENCE_POTENTIALS from_ref).mpr h
        simp [convert_potential, hnone]
      · cases hf : REFERENCE_POTENTIALS.lookup from_ref with
        | none => simp [convert_potential, hf]
        | some o₁ =>
          have hnone := (lookup_eq_none_iff REFERENCE_POTENTIALS to_ref).mpr h
          simp [convert_potential, hf, hnone]
  · intro h
    simp [handleConvert, h]

/-- Witness for C7: the unrecognized name Unobtainium makes the
conversion fail and the handler leave the empty history empty. -/
theorem unknown_electrode_characterisation_witness :
    (convert_potential 0 "Unobtainium" "SHE (Standard Hydrogen)" =
        .error ConvError.UnknownElectrode ↔
      "Unobtainium" ∉ electrodeNames ∨
        "SHE (Standard Hydrogen)" ∉ electrodeNames) ∧
    (convert_potential 0 "Unobtainium" "SHE (Standard Hydrogen)" =
        .error ConvError.UnknownElectrode →
      (handleConvert [] 0 "Unobtainium" "SHE (Standard Hydrogen)" "").1 =
        []) :=
  unknown_electrode_characterisation 0 "Unobtainium"
    "SHE (Standard Hydrogen)" [] ""

/-- C8: each successful conversion appends exactly one record at the end
of the history (so the length grows by one and all earlier entries are
preserved in order), and the clear action empties the history regardless
of its prior length. -/
theorem history_append_and_clear (history : List ConversionRecord)
    (p : ℚ) (from_ref to_ref ts : String) (v : ℚ)
    (h : convert_potential p from_ref to_ref = .ok v) :
    (handleConvert history p from_ref to_ref ts).1 =
      history ++ [⟨p, from_ref, to_ref, v, ts⟩] ∧
    (handleConvert history p from_ref to_ref ts).1.length =
      history.length + 1 ∧
    handleClearHistory history = [] := by
  refine ⟨by simp [handleConvert, h], by simp [handleConvert, h], rfl⟩

/-- Witness for C8: one successful NHE-to-SHE conversion appended to a
one-element history. -/
theorem history_append_and_clear_witness :
    convert_potential 0 "NHE (Normal Hydrogen)"
      "SHE (Standard Hydrogen)" = .ok 0 ∧
    (handleConvert [⟨1, "a", "b", 1, "t0"⟩] 0 "NHE (Normal Hydrogen)"
        "SHE (Standard Hydrogen)" "t1").1 =
      [⟨1, "a", "b", 1, "t0"⟩] ++
        [⟨0, "NHE (Normal Hydrogen)", "SHE (Standard Hydrogen)", 0, "t1"⟩] ∧
    (handleConvert [⟨1, "a", "b", 1, "t0"⟩] 0 "NHE (Normal Hydrogen)"
        "SHE (Standard Hydrogen)" "t1").1.length =
      [(⟨1, "a", "b", 1, "t0"⟩ : ConversionRecord)].length + 1 ∧
    handleClearHistory [⟨1, "a", "b", 1, "t0"⟩] = [] :=
  ⟨by show Except.ok ((0 : ℚ) + 0 - 0) = Except.ok 0; norm_num,
    history_append_and_clear [⟨1, "a", "b", 1, "t0"⟩] 0
      "NHE (Normal Hydrogen)" "SHE (Standard Hydrogen)" "t1" 0
      (by show Except.ok ((0 : ℚ) + 0 - 0) = Except.ok 0; norm_num)⟩

/-- C9: the swap intent exchanges the two electrode selections: applying
the session-state overrides written by the Swap References handler on
selections (from_ref, to_ref) yields (to_ref, from_ref) on the next run,
whatever the widgets initially report there, and consumes the request. -/
theorem swap_exchanges_selections (from_ref to_ref : String)
    (s : SwapRequest) (next_from next_to : String) :
    applySwapRequest next_from next_to (handleSwap from_ref to_ref s) =
      ((to_ref, from_ref), ⟨none, none⟩) :=
  rfl

/-- C10: convert_potential is total on table keys — for every binary64
potential p, including the infinities and NaN, and every pair of names
that are both keys of REFERENCE_POTENTIALS, the conversion in the
program's own float arithmetic returns a float normally; the
dictionary-lookup failure branch is unreachable under this key-membership
precondition, and the two arithmetic operations are total on all
binary64 values. -/
theorem convert_total_on_table_keys (p : Float64)
    (from_ref to_ref : String)
    (hf : from_ref ∈ electrodeNames) (ht : to_ref ∈ electrodeNames) :
    ∃ v : Float64, convert_potential_fp p from_ref to_ref = .ok v := by
  have hkeys : REFERENCE_POTENTIALS_fp.map Prod.fst = electrodeNames := rfl
  obtain ⟨o₁, h₁⟩ :=
    lookup_of_mem_keys (l := REFERENCE_POTENTIALS_fp) (hkeys ▸ hf)
  obtain ⟨o₂, h₂⟩ :=
    lookup_of_mem_keys (l := REFERENCE_POTENTIALS_fp) (hkeys ▸ ht)
  exact ⟨fsub (fadd p o₁) o₂, by simp [convert_potential_fp, h₁, h₂]⟩

/-- Witness for C10: conversion of NaN between two table electrodes
returns normally (NaN propagates through the arithmetic without any
exception). -/
theorem convert_total_on_table_keys_witness :
    ("Hg/HgO (1M NaOH)" ∈ electrodeNames) ∧
    ("Calomel (1M KCl)" ∈ electrodeNames) ∧
    ∃ v : Float64, convert_potential_fp Float64.nan "Hg/HgO (1M NaOH)"
      "Calomel (1M KCl)" = .ok v :=
  ⟨by decide, by decide,
    convert_total_on_table_keys Float64.nan "Hg/HgO (1M NaOH)"
      "Calomel (1M KCl)" (by decide) (by decide)⟩

end PotentialConverter
